import Mathlib

/-!
Shallow embedding of the network topology diagram component
(`TreeBuilder` / `NodeRenderer` / `EdgeRenderer` / `StatsAggregator`)
from `src/apps/website/src/components/shared/form/LocalDateTimeField.tsx`
(the `Network` component segment), together with proofs of the spec's
claims about it.
-/

namespace AlveusNetwork

/-- Device types, from the `NetworkItem["type"]` union (keys of `nodeTypes`). -/
inductive DeviceType : Type where
  | switch
  | converter
  | accessPoint
  | camera
  | microphone
  | speaker
  | interface
  | server
  | controlunit
deriving DecidableEq, Repr, Fintype

/-- Connection types, from `NestedNetworkItem["connection"]["type"]`
(keys of `edgeTypes`). -/
inductive ConnectionType : Type where
  | ethernet
  | fiber
  | wifi
  | cloud
  | coax
deriving DecidableEq, Repr, Fintype

/-- A connection record carried by a `NestedNetworkItem`. -/
structure Connection : Type where
  type : ConnectionType
deriving DecidableEq, Repr

/-- A network device. `NetworkItem` from `@/data/tech/network`: `name`,
`type`, `model`, optional `url`; a `NestedNetworkItem` additionally carries
a `connection` and an optional `links` list of children. Both shapes are
merged into one type with `connection : Option Connection`; TS string
truthiness for `url` is modelled as presence of the option. -/
inductive NetworkItem : Type where
  | mk (name : String) (type : DeviceType) (model : String)
      (url : Option String) (connection : Option Connection)
      (links : Option (List NetworkItem)) : NetworkItem

def NetworkItem.name : NetworkItem → String
  | .mk n _ _ _ _ _ => n

def NetworkItem.type : NetworkItem → DeviceType
  | .mk _ t _ _ _ _ => t

def NetworkItem.model : NetworkItem → String
  | .mk _ _ m _ _ _ => m

def NetworkItem.url : NetworkItem → Option String
  | .mk _ _ _ u _ _ => u

def NetworkItem.connection : NetworkItem → Option Connection
  | .mk _ _ _ _ c _ => c

def NetworkItem.links : NetworkItem → Option (List NetworkItem)
  | .mk _ _ _ _ _ l => l

/-- Modelled from the spec: `isNestedNetworkItem` lives in
`@/data/tech/network`, outside this slice; per the spec's data model a
`NestedNetworkItem` is exactly an item that carries a `connection`
describing how it links to its parent. -/
def isNestedNetworkItem (i : NetworkItem) : Bool :=
  i.connection.isSome

/-- The `eyebrow` record of a `nodeTypes` entry. -/
structure Eyebrow : Type where
  name : String
  color : String
deriving DecidableEq, Repr

/-- One entry of the static `nodeTypes` table. -/
structure NodeTypeInfo : Type where
  container : String
  stats : Bool
  eyebrow : Eyebrow
deriving DecidableEq, Repr

/-- The static per-device-type table `nodeTypes`. -/
def nodeTypes : DeviceType → NodeTypeInfo
  | .switch =>
    { container := "border-blue-700", stats := true,
      eyebrow := { name := "Network Switch", color := "text-blue-700" } }
  | .converter =>
    { container := "border-blue-700 border-dashed", stats := false,
      eyebrow := { name := "Media Converter", color := "text-blue-700" } }
  | .accessPoint =>
    { container := "border-blue-400", stats := true,
      eyebrow := { name := "WiFi Access Point", color := "text-blue-400" } }
  | .camera =>
    { container := "border-green-700", stats := true,
      eyebrow := { name := "Camera", color := "text-green-700" } }
  | .microphone =>
    { container := "border-green-400", stats := true,
      eyebrow := { name := "Microphone", color := "text-green-400" } }
  | .speaker =>
    { container := "border-green-400", stats := false,
      eyebrow := { name := "Speaker", color := "text-green-400" } }
  | .interface =>
    { container := "border-green-400", stats := false,
      eyebrow := { name := "Audio I/O Interface", color := "text-green-400" } }
  | .server =>
    { container := "border-yellow-700", stats := false,
      eyebrow := { name := "Server", color := "text-yellow-700" } }
  | .controlunit =>
    { container := "border-red-700", stats := false,
      eyebrow := { name := "Camera Control Unit", color := "text-red-700" } }

/-- The `stroke` record of an `edgeTypes` entry; the optional `dash`
(`number` or a dash-pattern string in TS) is modelled as the string form,
which is what every entry of the table uses. -/
structure Stroke : Type where
  color : String
  dash : Option String
deriving DecidableEq, Repr

/-- One entry of the static `edgeTypes` table. -/
structure EdgeTypeInfo : Type where
  name : String
  stroke : Stroke
deriving DecidableEq, Repr

/-- The static per-connection-type table `edgeTypes`. -/
def edgeTypes : ConnectionType → EdgeTypeInfo
  | .ethernet =>
    { name := "Ethernet", stroke := { color := "stroke-blue-700", dash := none } }
  | .fiber =>
    { name := "Fiber", stroke := { color := "stroke-blue-700", dash := some "8 8" } }
  | .wifi =>
    { name := "WiFi", stroke := { color := "stroke-blue-400", dash := some "4 8" } }
  | .cloud =>
    { name := "Cloud", stroke := { color := "stroke-yellow-700", dash := some "4 8" } }
  | .coax =>
    { name := "Coax", stroke := { color := "stroke-red-700", dash := some "16 8" } }

/-- Declaration order of the keys of `nodeTypes`, as iterated by
`typeSafeObjectKeys` / `typeSafeObjectEntries` (JS object key order). -/
def deviceTypeOrder : List DeviceType :=
  [.switch, .converter, .accessPoint, .camera, .microphone, .speaker,
   .interface, .server, .controlunit]

mutual

/-- Contribution of one item to `toCounts`: one for its own type plus the
recursive counts of its `links`, mirroring the loop body of `toCounts`. -/
def toCountsItem : NetworkItem → DeviceType → Nat
  | .mk _ t _ _ _ links, k =>
    (if t = k then 1 else 0) +
      (match links with
       | some ls => toCounts ls k
       | none => 0)

/-- `toCounts`: per-type device counts over a list of items and all their
nested `links`, as a total function on the nine device types (the TS code
initialises every key of `nodeTypes` to `0` and accumulates by addition,
so the accumulation order does not affect the totals). -/
def toCounts : List NetworkItem → DeviceType → Nat
  | [], _ => 0
  | i :: rest, k => toCountsItem i k + toCounts rest k

end

/-- The module-level `stats` value, applied to an arbitrary tree instead
of the fixed `network` data (which lives outside this slice):
`typeSafeObjectEntries(toCounts(items)).filter(([key, value]) =>
nodeTypes[key].stats && value)`, with JS number truthiness as `≠ 0`. -/
def stats (items : List NetworkItem) : List (DeviceType × Nat) :=
  (deviceTypeOrder.map fun k => (k, toCounts items k)).filter
    fun p => (nodeTypes p.1).stats && p.2 != 0

mutual

/-- All devices of a list of items, in depth-first pre-order: each item
followed by its flattened `links`. Spec-side notion of "the devices
anywhere in the tree". -/
def flatten : List NetworkItem → List NetworkItem
  | [] => []
  | i :: rest => flattenItem i ++ flatten rest

/-- All devices of one item's subtree, in depth-first pre-order. -/
def flattenItem : NetworkItem → List NetworkItem
  | .mk n t m u c links =>
    .mk n t m u c links ::
      (match links with
       | some ls => flatten ls
       | none => [])

end

/-- Spec-side count: the number of devices of type `k` anywhere in the
tree, i.e. in the depth-first flattening. -/
def specCount (items : List NetworkItem) (k : DeviceType) : Nat :=
  ((flatten items).filter fun i => i.type = k).length

mutual

theorem toCountsItem_eq (i : NetworkItem) (k : DeviceType) :
    toCountsItem i k =
      ((flattenItem i).filter fun x => x.type = k).length := by
  cases i with
  | mk n t m u c links =>
    cases links with
    | none =>
      simp [toCountsItem, flattenItem, NetworkItem.type, List.filter_cons]
      by_cases h : t = k <;> simp [h]
    | some ls =>
      have hrec := toCounts_eq ls k
      simp [toCountsItem, flattenItem, NetworkItem.type, List.filter_cons,
        specCount] at hrec ⊢
      by_cases h : t = k
      · simp [h, hrec]
        omega
      · simp [h, hrec]

theorem toCounts_eq (items : List NetworkItem) (k : DeviceType) :
    toCounts items k = specCount items k := by
  cases items with
  | nil => simp [toCounts, specCount, flatten]
  | cons i rest =>
    have h1 := toCountsItem_eq i k
    have h2 := toCounts_eq rest k
    simp [toCounts, specCount, flatten, List.filter_append, h1, h2]

end

/-- Every device type occurs in the declared key order. -/
theorem mem_deviceTypeOrder (k : DeviceType) : k ∈ deviceTypeOrder := by
  cases k <;> simp [deviceTypeOrder]

/-- First nested camera of the spec's worked example. -/
def exampleCamera1 : NetworkItem :=
  .mk "Camera One" .camera "X100" none (some { type := .ethernet }) none

/-- Second nested camera of the spec's worked example. -/
def exampleCamera2 : NetworkItem :=
  .mk "Camera Two" .camera "X200" none (some { type := .ethernet }) none

/-- The spec's worked example: one root device of type `switch` with two
nested children of type `camera`. -/
def exampleTree : List NetworkItem :=
  [.mk "Root Switch" .switch "SW-01" none none
    (some [exampleCamera1, exampleCamera2])]

/-- C1: `stats` (the composition of `toCounts` with the stats filter) is
exactly the mapping that assigns to every device type whose `nodeTypes`
entry has the stats flag, and whose total count of devices anywhere in
the tree (nested children at any depth included) is non-zero, that total
count; on the worked example (one root `switch` with two nested `camera`
children) it reports switch: 1 and camera: 2. -/
theorem stats_counts_types_in_tree :
    (∀ (items : List NetworkItem) (k : DeviceType) (n : Nat),
        (k, n) ∈ stats items ↔
          ((nodeTypes k).stats = true ∧ n = specCount items k ∧ n ≠ 0)) ∧
      stats exampleTree = [(.switch, 1), (.camera, 2)] := by
  constructor
  · intro items k n
    constructor
    · intro hmem
      obtain ⟨hmap, hpred⟩ := List.mem_filter.mp hmem
      obtain ⟨k', _hk', heq⟩ := List.mem_map.mp hmap
      obtain ⟨rfl, rfl⟩ : k' = k ∧ toCounts items k' = n := by
        constructor
        · exact congrArg Prod.fst heq
        · exact congrArg Prod.snd heq
      simp only [Bool.and_eq_true, bne_iff_ne, ne_eq] at hpred
      exact ⟨hpred.1, toCounts_eq items k', hpred.2⟩
    · rintro ⟨hstats, rfl, hne⟩
      apply List.mem_filter.mpr
      refine ⟨List.mem_map.mpr ⟨k, mem_deviceTypeOrder k, ?_⟩, ?_⟩
      · rw [toCounts_eq]
      · simp only [Bool.and_eq_true, bne_iff_ne, ne_eq]
        exact ⟨hstats, hne⟩
  · rfl

/-- The count computed by `toCounts` is the number of occurrences of the
type in the list of all device types of the flattened tree. -/
theorem toCounts_eq_count_types (items : List NetworkItem) (k : DeviceType) :
    toCounts items k = ((flatten items).map NetworkItem.type).count k := by
  rw [toCounts_eq, specCount, List.count, List.countP_map]
  rw [List.countP_eq_length_filter]
  rfl

/-- A flat variant of the worked example: the same three devices, all at
the root level and in a different order. -/
def exampleFlatTree : List NetworkItem :=
  [exampleCamera1, exampleCamera2,
   .mk "Root Switch" .switch "SW-01" none none none]

/-- C9: the totals of `toCounts` depend only on the multiset of device
types in the tree, not on its shape: each count is the multiplicity of
the type among all devices of the flattened tree, and any two trees whose
flattened device types form the same multiset get identical counts, so
moving a device to any other nesting depth leaves its contribution
unchanged. -/
theorem toCounts_nesting_invariant :
    (∀ (items : List NetworkItem) (k : DeviceType),
        toCounts items k = ((flatten items).map NetworkItem.type).count k) ∧
      ∀ (itemsA itemsB : List NetworkItem),
        (((flatten itemsA).map NetworkItem.type : Multiset DeviceType) =
            ((flatten itemsB).map NetworkItem.type : Multiset DeviceType)) →
        ∀ k, toCounts itemsA k = toCounts itemsB k := by
  refine ⟨toCounts_eq_count_types, ?_⟩
  intro itemsA itemsB h k
  rw [toCounts_eq_count_types, toCounts_eq_count_types]
  exact (Multiset.coe_eq_coe.mp h).count_eq k

/-- Witness for C9: the nested worked example and its flat reordered
variant have the same multiset of device types, hence the same camera
count. -/
theorem toCounts_nesting_invariant_witness :
    (((flatten exampleTree).map NetworkItem.type : Multiset DeviceType) =
        ((flatten exampleFlatTree).map NetworkItem.type :
          Multiset DeviceType)) ∧
      toCounts exampleTree .camera = toCounts exampleFlatTree .camera :=
  ⟨by decide,
   toCounts_nesting_invariant.2 exampleTree exampleFlatTree (by decide)
     .camera⟩

/-- String form of a device type, as interpolated by the TS template
literals (the union members are string literals). -/
def DeviceType.toStr : DeviceType → String
  | .switch => "switch"
  | .converter => "converter"
  | .accessPoint => "accessPoint"
  | .camera => "camera"
  | .microphone => "microphone"
  | .speaker => "speaker"
  | .interface => "interface"
  | .server => "server"
  | .controlunit => "controlunit"

/-- Modelled from the spec: `convertToSlug` lives in `@/utils/slugs`,
outside this slice; the spec says only that a node's id is a slug of the
name-and-type string, and no claim here depends on how the slug is
formed, so it is modelled as the identity on that string. -/
def convertToSlug (s : String) : String := s

/-- The `Data` payload attached to every tree node: display label plus
the underlying item. -/
structure Data : Type where
  label : String
  item : NetworkItem

/-- A `TreeNode<Data>` as built by `toTree`: id, node type tag, data
payload and nested children. -/
inductive TreeNode : Type where
  | mk (id : String) (type : String) (data : Data)
      (children : List TreeNode) : TreeNode

def TreeNode.id : TreeNode → String
  | .mk i _ _ _ => i

def TreeNode.data : TreeNode → Data
  | .mk _ _ d _ => d

def TreeNode.children : TreeNode → List TreeNode
  | .mk _ _ _ c => c

mutual

/-- One step of `toTree`: the record built for a single item. -/
def toTreeItem : NetworkItem → TreeNode
  | .mk n t m u c links =>
    .mk (convertToSlug (n ++ "-" ++ t.toStr)) "network"
      { label := n ++ " (" ++ t.toStr ++ ")",
        item := .mk n t m u c links }
      (match links with
       | some ls => toTree ls
       | none => [])

/-- `toTree`: maps each item to a `TreeNode`, recursing into `links`
for the children (items without `links` become leaves). -/
def toTree : List NetworkItem → List TreeNode
  | [] => []
  | i :: rest => toTreeItem i :: toTree rest

end

mutual

/-- Number of graph nodes in one tree node's subtree (itself plus all
descendants through `children`). -/
def treeNodeCount : TreeNode → Nat
  | .mk _ _ _ children => 1 + treeNodeCountList children

/-- Number of graph nodes in a forest, descendants included. -/
def treeNodeCountList : List TreeNode → Nat
  | [] => 0
  | n :: rest => treeNodeCount n + treeNodeCountList rest

end

mutual

theorem treeNodeCount_toTreeItem (i : NetworkItem) :
    treeNodeCount (toTreeItem i) = (flattenItem i).length := by
  cases i with
  | mk n t m u c links =>
    cases links with
    | none => simp [toTreeItem, treeNodeCount, treeNodeCountList, flattenItem]
    | some ls =>
      have hrec := treeNodeCountList_toTree ls
      simp [toTreeItem, treeNodeCount, flattenItem, hrec]
      omega

theorem treeNodeCountList_toTree (items : List NetworkItem) :
    treeNodeCountList (toTree items) = (flatten items).length := by
  cases items with
  | nil => simp [toTree, treeNodeCountList, flatten]
  | cons i rest =>
    have h1 := treeNodeCount_toTreeItem i
    have h2 := treeNodeCountList_toTree rest
    simp [toTree, treeNodeCountList, flatten, h1, h2]

end

theorem toTree_item_projection (items : List NetworkItem) :
    (toTree items).map (fun n => n.data.item) = items := by
  induction items with
  | nil => rfl
  | cons i rest ih =>
    simp only [toTree, List.map_cons, ih]
    cases i with
    | mk n t m u c links => rfl

/-- C2: for every device tree, `toTree` produces exactly one graph node
per device: the total node count (each node plus all its descendants
through `children`) equals the number of devices in the flattened input
tree, and at every level the produced nodes carry the input items in
insertion order (projecting each node to its underlying item gives back
the input list, and each node's children are `toTree` of its item's
`links`). -/
theorem toTree_preserves_count_and_order :
    ∀ items : List NetworkItem,
      treeNodeCountList (toTree items) = (flatten items).length ∧
        (toTree items).map (fun n => n.data.item) = items ∧
        ∀ i : NetworkItem, (toTreeItem i).children =
          (match i.links with
           | some ls => toTree ls
           | none => []) := by
  intro items
  refine ⟨treeNodeCountList_toTree items, toTree_item_projection items, ?_⟩
  intro i
  cases i with
  | mk n t m u c links => cases links <;> rfl

/-- Per-edge interactive state: the `hovered` and `focused` flags held in
the two `useState` hooks of `NetworkEdge`. -/
structure EdgeInteraction : Type where
  hovered : Bool
  focused : Bool
deriving DecidableEq, Repr, Fintype

/-- Events delivered by the listeners `NetworkEdge` attaches to the
edge's parent element: `mouseenter`, `mouseleave`, `focus`, `blur`. -/
inductive EdgeEvent : Type where
  | pointerEnter
  | pointerLeave
  | focusIn
  | focusOut
deriving DecidableEq, Repr, Fintype

/-- Effect of one event on the per-edge state: the handlers call
`setHovered(true/false)` on pointer enter/leave and `setFocused(true/false)`
on focus/blur, each leaving the other flag untouched. -/
def edgeStep : EdgeInteraction → EdgeEvent → EdgeInteraction
  | s, .pointerEnter => { s with hovered := true }
  | s, .pointerLeave => { s with hovered := false }
  | s, .focusIn => { s with focused := true }
  | s, .focusOut => { s with focused := false }

/-- The edge is rendered in its emphasised state (`hovered || focused`):
the floating label is shown and the reduced-opacity class is omitted. -/
def edgeActive (s : EdgeInteraction) : Bool :=
  s.hovered || s.focused

/-- The idle edge state: neither hovered nor focused. -/
def edgeIdle : EdgeInteraction :=
  { hovered := false, focused := false }

/-- C3: an edge is active exactly when its hovered flag or its focused
flag is set; pointer enter/leave toggle only the hovered flag and
focus-in/out only the focused flag; and from the idle state the sequence
pointer-enter, pointer-leave, focus-in passes through active, idle,
active. -/
theorem edge_state_machine :
    (∀ s : EdgeInteraction,
        edgeActive s = true ↔ (s.hovered = true ∨ s.focused = true)) ∧
      (∀ s : EdgeInteraction,
          (edgeStep s .pointerEnter).hovered = true ∧
            (edgeStep s .pointerEnter).focused = s.focused ∧
            (edgeStep s .pointerLeave).hovered = false ∧
            (edgeStep s .pointerLeave).focused = s.focused ∧
            (edgeStep s .focusIn).focused = true ∧
            (edgeStep s .focusIn).hovered = s.hovered ∧
            (edgeStep s .focusOut).focused = false ∧
            (edgeStep s .focusOut).hovered = s.hovered) ∧
      edgeActive (edgeStep edgeIdle .pointerEnter) = true ∧
      edgeActive (edgeStep (edgeStep edgeIdle .pointerEnter)
        .pointerLeave) = false ∧
      edgeActive (edgeStep (edgeStep (edgeStep edgeIdle .pointerEnter)
        .pointerLeave) .focusIn) = true := by
  refine ⟨?_, ?_, rfl, rfl, rfl⟩
  · intro s
    simp [edgeActive]
  · intro s
    exact ⟨rfl, rfl, rfl, rfl, rfl, rfl, rfl, rfl⟩

/-- Effect of mounting the edge anchor on the parent element's
focusability attribute (modelled as its optional value): the renderer
sets `tabindex` to `"-1"` only when the attribute is absent, and records
in the returned flag whether it was the one that granted it. -/
def mountTabIndex : Option String → Option String × Bool
  | none => (some "-1", true)
  | some v => (some v, false)

/-- Effect of the cleanup on unmount: the attribute is removed exactly
when the mount granted it. -/
def unmountTabIndex (attr : Option String) (granted : Bool) :
    Option String :=
  if granted then none else attr

/-- C8: mounting grants the focusability attribute only when the element
lacked one (and the grant flag records exactly that case), the mounted
element is always focusable, and the mount/unmount cycle restores the
original attribute: a pre-existing `tabindex` survives and an absent one
is absent again, with no leaked attribute. -/
theorem tabindex_grant_is_scoped :
    ∀ a : Option String,
      ((mountTabIndex a).2 = true ↔ a = none) ∧
        (mountTabIndex a).1.isSome = true ∧
        unmountTabIndex (mountTabIndex a).1 (mountTabIndex a).2 = a := by
  intro a
  cases a with
  | none => exact ⟨by simp [mountTabIndex], rfl, rfl⟩
  | some v =>
    refine ⟨by simp [mountTabIndex], rfl, ?_⟩
    simp [mountTabIndex, unmountTabIndex]

/-- A node of the rendering surface as seen by `NetworkEdge` through
`useNodes<Data>()`: its id and its `Data` payload (the layout metadata is
irrelevant to the claims and omitted). -/
structure GraphNode : Type where
  id : String
  data : Data

/-- The endpoint-resolution loop of `NetworkEdge`: scan the node set,
fill the source slot with the first node whose id equals `source` and
the target slot with the first node whose id equals `target`, and stop
as soon as both are filled. -/
def resolveEndpoints : List GraphNode → String → String →
    Option GraphNode → Option GraphNode →
    Option GraphNode × Option GraphNode
  | [], _, _, s, t => (s, t)
  | n :: rest, src, tgt, s, t =>
    let s' := if s.isNone && (n.id == src) then some n else s
    let t' := if t.isNone && (n.id == tgt) then some n else t
    if s'.isSome && t'.isSome then (s', t')
    else resolveEndpoints rest src tgt s' t'

/-- The observable outcome of one `NetworkEdge` render: stroke colour
class and dash pattern applied to the path, whether the reduced-opacity
class is applied, and the floating label shown while hovered or
focused. -/
structure EdgeRender : Type where
  strokeColor : String
  strokeDash : Option String
  reducedOpacity : Bool
  label : Option String
deriving DecidableEq, Repr

/-- `NetworkEdge` as a function of the node set, the edge's endpoint ids
and the current interaction flags: resolve both endpoints (throwing
"Missing source or target" when either is absent), require the target's
item to be nested (`isNestedNetworkItem`, i.e. to carry a `connection`;
otherwise throw "Invalid target"), then style the edge from the
`edgeTypes` entry of the target's connection type. -/
def renderNetworkEdge (nodes : List GraphNode) (source target : String)
    (hovered focused : Bool) : Except String EdgeRender :=
  match resolveEndpoints nodes source target none none with
  | (some _sn, some tn) =>
    match tn.data.item.connection with
    | none => .error "Invalid target"
    | some conn =>
      .ok { strokeColor := (edgeTypes conn.type).stroke.color,
            strokeDash := (edgeTypes conn.type).stroke.dash,
            reducedOpacity := !hovered && !focused,
            label := if hovered || focused then
              some (edgeTypes conn.type).name else none }
  | _ => .error "Missing source or target"

/-- An already-filled slot keeps its value; an empty one gets the first
match in the remaining nodes. -/
def orFirstMatch (o : Option GraphNode) (nodes : List GraphNode)
    (key : String) : Option GraphNode :=
  match o with
  | some x => some x
  | none => nodes.find? fun n => n.id == key

theorem resolveEndpoints_spec (nodes : List GraphNode) (src tgt : String) :
    ∀ s t : Option GraphNode,
      resolveEndpoints nodes src tgt s t =
        if s.isSome ∧ t.isSome then (s, t)
        else (orFirstMatch s nodes src, orFirstMatch t nodes tgt) := by
  induction nodes with
  | nil =>
    intro s t
    cases s <;> cases t <;> simp [resolveEndpoints, orFirstMatch]
  | cons n rest ih =>
    intro s t
    have hsb : (n.id == src) = true ∨ (n.id == src) = false := by
      cases n.id == src <;> simp
    have htb : (n.id == tgt) = true ∨ (n.id == tgt) = false := by
      cases n.id == tgt <;> simp
    cases s <;> cases t <;> rcases hsb with hsb | hsb <;>
      rcases htb with htb | htb <;>
        simp [resolveEndpoints, orFirstMatch, hsb, htb,
          List.find?_cons, ih]

/-- Starting from empty slots, the scan yields exactly the first node
matching the source id and the first node matching the target id. -/
theorem resolveEndpoints_eq_find (nodes : List GraphNode)
    (src tgt : String) :
    resolveEndpoints nodes src tgt none none =
      (nodes.find? (fun n => n.id == src),
       nodes.find? (fun n => n.id == tgt)) := by
  rw [resolveEndpoints_spec]
  simp [orFirstMatch]

/-- C5: for every edge render, the resolution scan with early exit
yields exactly the first node whose id equals the edge's source and the
first whose id equals its target (so a resolved endpoint is a node of
the set bearing the requested id), and `NetworkEdge` throws "Missing
source or target" precisely when no node carries the source id or no
node carries the target id — a malformed edge is never silently
skipped. -/
theorem edge_missing_endpoint_fails :
    ∀ (nodes : List GraphNode) (src tgt : String) (hovered focused : Bool),
      (resolveEndpoints nodes src tgt none none).1 =
          nodes.find? (fun n => n.id == src) ∧
        (resolveEndpoints nodes src tgt none none).2 =
          nodes.find? (fun n => n.id == tgt) ∧
        (∀ sn, nodes.find? (fun n => n.id == src) = some sn →
          sn ∈ nodes ∧ sn.id = src) ∧
        (∀ tn, nodes.find? (fun n => n.id == tgt) = some tn →
          tn ∈ nodes ∧ tn.id = tgt) ∧
        (renderNetworkEdge nodes src tgt hovered focused =
            Except.error "Missing source or target" ↔
          ((∀ n ∈ nodes, n.id ≠ src) ∨ (∀ n ∈ nodes, n.id ≠ tgt))) := by
  intro nodes src tgt hovered focused
  have hfind := resolveEndpoints_eq_find nodes src tgt
  refine ⟨by rw [hfind], by rw [hfind], ?_, ?_, ?_⟩
  · intro sn hsn
    refine ⟨List.mem_of_find?_eq_some hsn, ?_⟩
    have := List.find?_some hsn
    simpa using this
  · intro tn htn
    refine ⟨List.mem_of_find?_eq_some htn, ?_⟩
    have := List.find?_some htn
    simpa using this
  · simp only [renderNetworkEdge, hfind]
    cases hfs : nodes.find? (fun n => n.id == src) with
    | none =>
      simp only []
      constructor
      · intro _
        refine Or.inl fun n hn he => ?_
        exact (List.find?_eq_none.mp hfs n hn) (by simp [he])
      · intro _
        trivial
    | some sn =>
      cases hft : nodes.find? (fun n => n.id == tgt) with
      | none =>
        simp only []
        constructor
        · intro _
          refine Or.inr fun n hn he => ?_
          exact (List.find?_eq_none.mp hft n hn) (by simp [he])
        · intro _
          trivial
      | some tn =>
        constructor
        · intro hcontra
          cases hc : tn.data.item.connection with
          | none => simp [hc] at hcontra
          | some c => simp [hc] at hcontra
        · rintro (h | h)
          · exact absurd (by simpa using List.find?_some hfs)
              (h sn (List.mem_of_find?_eq_some hfs))
          · exact absurd (by simpa using List.find?_some hft)
              (h tn (List.mem_of_find?_eq_some hft))

/-- A root node: a switch with no connection of its own. -/
def nodeA : GraphNode :=
  { id := "a",
    data := { label := "Root Switch (switch)",
              item := .mk "Root Switch" .switch "SW-01" none none none } }

/-- A nested node whose connection to its parent is fiber. -/
def nodeB : GraphNode :=
  { id := "b",
    data := { label := "Fiber Cam (camera)",
              item := .mk "Fiber Cam" .camera "FC-1" none
                (some { type := .fiber }) none } }

/-- A two-node rendering surface. -/
def exampleNodes : List GraphNode := [nodeA, nodeB]

/-- C4: whenever `NetworkEdge` renders, its stroke colour, dash pattern
and connection-type name all come from the `edgeTypes` entry keyed by the
resolved target node's connection type (the source node never enters the
lookup); in particular a target connected by fiber gets the fiber stroke
style, and the label "Fiber" is displayed exactly while the edge is
active (hovered or focused). -/
theorem edge_styled_by_target_connection :
    ∀ (nodes : List GraphNode) (src tgt : String) (hovered focused : Bool)
      (r : EdgeRender) (tn : GraphNode) (c : Connection),
      renderNetworkEdge nodes src tgt hovered focused = Except.ok r →
      (resolveEndpoints nodes src tgt none none).2 = some tn →
      tn.data.item.connection = some c →
      (r.strokeColor = (edgeTypes c.type).stroke.color ∧
          r.strokeDash = (edgeTypes c.type).stroke.dash ∧
          r.label = (if hovered || focused then
            some (edgeTypes c.type).name else none)) ∧
        (c.type = ConnectionType.fiber →
          r.strokeColor = "stroke-blue-700" ∧
            r.strokeDash = some "8 8" ∧
            (r.label = some "Fiber" ↔ (hovered || focused) = true)) := by
  intro nodes src tgt hovered focused r tn c hok htn hc
  obtain ⟨ct⟩ := c
  rw [renderNetworkEdge] at hok
  cases hres : resolveEndpoints nodes src tgt none none with
  | mk o1 o2 =>
    rw [hres] at hok
    rw [hres] at htn
    cases o1 with
    | none => cases o2 <;> simp at hok
    | some sn =>
      cases o2 with
      | none => simp at hok
      | some tn2 =>
        obtain rfl : tn2 = tn := by simpa using htn
        simp only [hc] at hok
        obtain rfl : r = _ := by
          cases hok
          rfl
        constructor
        · exact ⟨rfl, rfl, rfl⟩
        · intro hft
          cases hft
          refine ⟨rfl, rfl, ?_⟩
          cases hovered <;> cases focused <;> simp [edgeTypes]

/-- The concrete outcome of rendering the edge from `nodeA` to the
fiber-connected `nodeB` while hovered. -/
def exampleEdgeRender : EdgeRender :=
  { strokeColor := "stroke-blue-700", strokeDash := some "8 8",
    reducedOpacity := false, label := some "Fiber" }

/-- Witness for C4: on the two-node surface, the edge from `nodeA` to
the fiber-connected `nodeB`, rendered while hovered, uses the fiber
stroke style and shows the label "Fiber". -/
theorem edge_styled_by_target_connection_witness :
    renderNetworkEdge exampleNodes "a" "b" true false =
        Except.ok exampleEdgeRender ∧
      exampleEdgeRender.strokeColor = "stroke-blue-700" ∧
        exampleEdgeRender.strokeDash = some "8 8" ∧
        (exampleEdgeRender.label = some "Fiber" ↔ (true || false) = true) :=
  ⟨rfl,
   (edge_styled_by_target_connection exampleNodes "a" "b" true false
     exampleEdgeRender nodeB { type := .fiber } rfl rfl rfl).2 rfl⟩

/-- C10: when both endpoints resolve but the target node's item is not a
`NestedNetworkItem` (it carries no `connection`), `NetworkEdge` throws
"Invalid target"; consequently every successfully rendered edge has a
resolved target whose item is nested. -/
theorem edge_rejects_unconnected_target :
    ∀ (nodes : List GraphNode) (src tgt : String) (hovered focused : Bool),
      (∀ sn tn,
          resolveEndpoints nodes src tgt none none = (some sn, some tn) →
          isNestedNetworkItem tn.data.item = false →
          renderNetworkEdge nodes src tgt hovered focused =
            Except.error "Invalid target") ∧
        ∀ r, renderNetworkEdge nodes src tgt hovered focused =
            Except.ok r →
          ∃ tn, (resolveEndpoints nodes src tgt none none).2 = some tn ∧
            isNestedNetworkItem tn.data.item = true := by
  intro nodes src tgt hovered focused
  constructor
  · intro sn tn hres hnotnested
    rw [renderNetworkEdge, hres]
    have hc : tn.data.item.connection = none := by
      rw [isNestedNetworkItem] at hnotnested
      cases h : tn.data.item.connection with
      | none => rfl
      | some c => rw [h] at hnotnested; simp at hnotnested
    simp [hc]
  · intro r hok
    rw [renderNetworkEdge] at hok
    cases hres : resolveEndpoints nodes src tgt none none with
    | mk o1 o2 =>
      rw [hres] at hok
      cases o1 with
      | none => cases o2 <;> simp at hok
      | some sn =>
        cases o2 with
        | none => simp at hok
        | some tn =>
          simp only [] at hok
          refine ⟨tn, rfl, ?_⟩
          rw [isNestedNetworkItem]
          cases hc : tn.data.item.connection with
          | none =>
            rw [hc] at hok
            simp at hok
          | some c => simp

/-- Witness for C10: rendering the reversed edge, whose target `nodeA`
is a root item with no connection, throws "Invalid target". -/
theorem edge_rejects_unconnected_target_witness :
    renderNetworkEdge exampleNodes "b" "a" true false =
      Except.error "Invalid target" :=
  (edge_rejects_unconnected_target exampleNodes "b" "a" true false).1
    nodeB nodeA rfl rfl

/-- Witness for C5: on the two-node surface the scan resolves `nodeA`
for id "a", and rendering with an id absent from the node set throws
"Missing source or target". -/
theorem edge_missing_endpoint_fails_witness :
    (nodeA ∈ exampleNodes ∧ nodeA.id = "a") ∧
      renderNetworkEdge exampleNodes "zzz" "b" true false =
        Except.error "Missing source or target" :=
  ⟨(edge_missing_endpoint_fails exampleNodes "a" "b" true
      false).2.2.1 nodeA rfl,
   (edge_missing_endpoint_fails exampleNodes "zzz" "b" true
      false).2.2.2.2.mpr (Or.inl (by decide))⟩

/-- An edge of the rendering surface as seen by `NetworkNode` through
`useEdges()`: only its endpoint ids matter here. -/
structure FlowEdge : Type where
  source : String
  target : String
deriving DecidableEq, Repr

/-- The edge-scanning loop of `NetworkNode`: fill the target-edge slot
with the first edge whose `target` is this node's id and the source-edge
slot with the first edge whose `source` is, stopping as soon as both are
filled. -/
def findNodeEdges : List FlowEdge → String →
    Option FlowEdge → Option FlowEdge → Option FlowEdge × Option FlowEdge
  | [], _, t, s => (t, s)
  | e :: rest, nid, t, s =>
    let t' := if t.isNone && (e.target == nid) then some e else t
    let s' := if s.isNone && (e.source == nid) then some e else s
    if t'.isSome && s'.isSome then (t', s')
    else findNodeEdges rest nid t' s'

/-- An already-filled slot keeps its edge; an empty one gets the first
match in the remaining edges. -/
def orFirstEdgeMatch (o : Option FlowEdge) (edges : List FlowEdge)
    (p : FlowEdge → Bool) : Option FlowEdge :=
  match o with
  | some x => some x
  | none => edges.find? p

theorem findNodeEdges_spec (edges : List FlowEdge) (nid : String) :
    ∀ t s : Option FlowEdge,
      findNodeEdges edges nid t s =
        if t.isSome ∧ s.isSome then (t, s)
        else (orFirstEdgeMatch t edges (fun e => e.target == nid),
              orFirstEdgeMatch s edges (fun e => e.source == nid)) := by
  induction edges with
  | nil =>
    intro t s
    cases t <;> cases s <;> simp [findNodeEdges, orFirstEdgeMatch]
  | cons e rest ih =>
    intro t s
    have htb : (e.target == nid) = true ∨ (e.target == nid) = false := by
      cases e.target == nid <;> simp
    have hsb : (e.source == nid) = true ∨ (e.source == nid) = false := by
      cases e.source == nid <;> simp
    cases t <;> cases s <;> rcases htb with htb | htb <;>
      rcases hsb with hsb | hsb <;>
        simp [findNodeEdges, orFirstEdgeMatch, htb, hsb,
          List.find?_cons, ih]

/-- Starting from empty slots, the scan yields exactly the first edge
targeting the node and the first edge sourced at it. -/
theorem findNodeEdges_eq_find (edges : List FlowEdge) (nid : String) :
    findNodeEdges edges nid none none =
      (edges.find? (fun e => e.target == nid),
       edges.find? (fun e => e.source == nid)) := by
  rw [findNodeEdges_spec]
  simp [orFirstEdgeMatch]

/-- The observable outcome of one `NetworkNode` render: the container
element kind, the link attributes, which handles are present, and the
static-table styling. -/
structure NodeRender : Type where
  element : String
  href : Option String
  target : Option String
  rel : Option String
  showTargetHandle : Bool
  showSourceHandle : Bool
  containerClass : String
  eyebrowText : String
  eyebrowColor : String
  nameText : String
  modelText : String
  showExternalIcon : Bool
deriving DecidableEq, Repr

/-- `NetworkNode` as a function of the node id, its item, the edge set
and the `isConnectable` prop: scan the edges for this node's first
target and source edges, pick `a` versus `div` and the link props from
the presence of a `url`, expose each handle when the matching edge
exists or the node is connectable, and style from the `nodeTypes`
entry of the item's type. -/
def renderNetworkNode (nid : String) (item : NetworkItem)
    (edges : List FlowEdge) (connectable : Bool) : NodeRender :=
  let found := findNodeEdges edges nid none none
  { element := if item.url.isSome then "a" else "div",
    href := item.url,
    target := if item.url.isSome then some "_blank" else none,
    rel := if item.url.isSome then some "noopener noreferrer" else none,
    showTargetHandle := found.1.isSome || connectable,
    showSourceHandle := found.2.isSome || connectable,
    containerClass := (nodeTypes item.type).container,
    eyebrowText := (nodeTypes item.type).eyebrow.name,
    eyebrowColor := (nodeTypes item.type).eyebrow.color,
    nameText := item.name,
    modelText := item.model,
    showExternalIcon := item.url.isSome }

/-- C6: a node renders as a hyperlink container exactly when its item
has a `url`, in which case it carries `target="_blank"` together with
`rel="noopener noreferrer"`; without a `url` it is a plain `div` with no
link attributes. -/
theorem node_link_iff_url :
    ∀ (nid : String) (item : NetworkItem) (edges : List FlowEdge)
      (connectable : Bool),
      ((renderNetworkNode nid item edges connectable).element = "a" ↔
          item.url.isSome = true) ∧
        ((renderNetworkNode nid item edges connectable).element = "div" ↔
          item.url = none) ∧
        (∀ u, item.url = some u →
          (renderNetworkNode nid item edges connectable).href = some u ∧
            (renderNetworkNode nid item edges connectable).target =
              some "_blank" ∧
            (renderNetworkNode nid item edges connectable).rel =
              some "noopener noreferrer") ∧
        (item.url = none →
          (renderNetworkNode nid item edges connectable).href = none ∧
            (renderNetworkNode nid item edges connectable).target = none ∧
            (renderNetworkNode nid item edges connectable).rel = none) := by
  intro nid item edges connectable
  cases hu : item.url with
  | none =>
    refine ⟨?_, ?_, ?_, ?_⟩ <;>
      simp [renderNetworkNode, hu]
  | some u =>
    refine ⟨?_, ?_, ?_, ?_⟩ <;>
      simp [renderNetworkNode, hu]

/-- An item carrying an external url. -/
def exampleLinkedItem : NetworkItem :=
  .mk "Linked Cam" .camera "LC-1" (some "https://example.com") none none

/-- An item with no url. -/
def examplePlainItem : NetworkItem :=
  .mk "Plain Cam" .camera "PC-1" none none none

/-- Witness for C6: with a url the render is an `a` with the safe
external-link attributes; without one it is a `div` with none of them. -/
theorem node_link_iff_url_witness :
    ((renderNetworkNode "n1" exampleLinkedItem [] false).href =
          some "https://example.com" ∧
        (renderNetworkNode "n1" exampleLinkedItem [] false).target =
          some "_blank" ∧
        (renderNetworkNode "n1" exampleLinkedItem [] false).rel =
          some "noopener noreferrer") ∧
      (renderNetworkNode "n2" examplePlainItem [] false).href = none ∧
        (renderNetworkNode "n2" examplePlainItem [] false).target = none ∧
        (renderNetworkNode "n2" examplePlainItem [] false).rel = none :=
  ⟨(node_link_iff_url "n1" exampleLinkedItem [] false).2.2.1
      "https://example.com" rfl,
   (node_link_iff_url "n2" examplePlainItem [] false).2.2.2 rfl⟩

/-- Counterexample for C7: with the `isConnectable` prop set, the node
`"n"` rendered against an empty edge set still shows its incoming
handle although no edge in the set has it as target, so handle presence
is not equivalent to edge existence. -/
theorem node_handles_counterexample :
    (renderNetworkNode "n" examplePlainItem [] true).showTargetHandle =
        true ∧
      ¬ ∃ e ∈ ([] : List FlowEdge), e.target = "n" := by
  exact ⟨rfl, by simp⟩

/-- C7 (amended): a handle is exposed exactly when a matching edge
exists or the node is connectable; with the scan itself resolving
exactly the first edge targeting the node and the first edge sourced at
it, so for a non-connectable node handle presence coincides with the
existence conditions. -/
theorem node_handles_amended :
    ∀ (nid : String) (item : NetworkItem) (edges : List FlowEdge)
      (connectable : Bool),
      ((renderNetworkNode nid item edges connectable).showTargetHandle =
          true ↔ ((∃ e ∈ edges, e.target = nid) ∨ connectable = true)) ∧
        ((renderNetworkNode nid item edges connectable).showSourceHandle =
          true ↔ ((∃ e ∈ edges, e.source = nid) ∨ connectable = true)) ∧
        (findNodeEdges edges nid none none).1 =
          edges.find? (fun e => e.target == nid) ∧
        (findNodeEdges edges nid none none).2 =
          edges.find? (fun e => e.source == nid) := by
  intro nid item edges connectable
  have hfind := findNodeEdges_eq_find edges nid
  refine ⟨?_, ?_, by rw [hfind], by rw [hfind]⟩
  · rw [renderNetworkNode]
    simp [hfind, List.find?_isSome]
  · rw [renderNetworkNode]
    simp [hfind, List.find?_isSome]

end AlveusNetwork
